import Mathlib

/-!
Verification development for the signfy-meet UI components:
`UserMediaProvider` (src/context/UserMedia.tsx) and `GalleryLayout`
(src/unnamed/part_000).

The provider is embedded as a state machine: React `useState` slots become
fields of `ProviderState`, browser `MediaStreamTrack` objects become records
in a `tracks` registry (mutating a shared track object becomes an id-directed
map over the registry), promise results delivered by the browser become
explicit environment arguments, and `track.stop()` / `setActiveCamera` calls
are additionally logged in an `events` trace so that temporal ordering
claims can be stated.
-/

namespace Signfy

/-- The `kind` of a browser `MediaStreamTrack` ("audio" or "video"). -/
inductive TrackKind where
  | audio
  | video
deriving DecidableEq

/-- A media track as the provider sees it: the identity of the underlying
browser `MediaStreamTrack`, its kind, its mutable `enabled` flag
(toggled by mute/unmute) and whether `stop()` has been called on it. -/
structure Track where
  id : Nat
  kind : TrackKind
  enabled : Bool
  stopped : Bool
deriving DecidableEq

/-- A `MediaDeviceInfo` record returned by `enumerateDevices`. -/
structure MediaDeviceInfo where
  deviceId : String
  kind : String
deriving DecidableEq

/-- Observable events of the provider, used to state ordering properties:
stopping a track, installing a track into the active-camera or
active-microphone slot, enumerating devices, and populating the two
device lists. -/
inductive Event where
  | stopTrack (id : Nat)
  | installCamera (id : Nat)
  | installMicrophone (id : Nat)
  | enumerateDevices
  | setMicrophoneDevices
  | setCameraDevices
deriving DecidableEq

/-- The component state of `UserMediaProvider`. `activeCamera` and
`activeMicrophone` hold the id of the track currently in the slot;
`localAudioAnalyser` holds the id of the microphone track the analyser is
connected to; `cameraDeviceId`/`microphoneDeviceId` are the `UserContext`
fields written through `setCameraDeviceId`/`setMicrophoneDeviceId`.
`nextId` generates fresh ids for tracks delivered by the browser, and
`events` is the trace log. -/
structure ProviderState where
  tracks : List Track
  nextId : Nat
  activeCamera : Option Nat
  activeMicrophone : Option Nat
  cameraDevices : List MediaDeviceInfo
  microphoneDevices : List MediaDeviceInfo
  userMediaError : Option String
  localAudioAnalyser : Option Nat
  cameraDeviceId : Option String
  microphoneDeviceId : Option String
  events : List Event
deriving DecidableEq

/-- The single static error string stored by the catch branches of
`requestPermissionAndPopulateDevices` and `requestPermissionAndStartDevices`. -/
def staticUserMediaError : String :=
  "Error accessing user media devices. Please ensure that you have a working microphone and camera."

/-- `track.stop()` on the track with id `tid`: the registry entry's
`stopped` flag becomes true. -/
def stopTrackIn (ts : List Track) (tid : Nat) : List Track :=
  ts.map fun t => if t.id = tid then { t with stopped := true } else t

/-- `track.enabled = b` on the track with id `tid`. -/
def setEnabledIn (ts : List Track) (tid : Nat) (b : Bool) : List Track :=
  ts.map fun t => if t.id = tid then { t with enabled := b } else t

/-- Initial provider state: empty device lists, no active tracks, no error
(the `useState` initial values). -/
def initState : ProviderState where
  tracks := []
  nextId := 0
  activeCamera := none
  activeMicrophone := none
  cameraDevices := []
  microphoneDevices := []
  userMediaError := none
  localAudioAnalyser := none
  cameraDeviceId := none
  microphoneDeviceId := none
  events := []

/-- The tracks of the dummy permission-gaining stream acquired by
`requestPermissionAndPopulateDevices`, as they end up after
`stream.getTracks().forEach((track) => track.stop())`: fresh consecutive ids
starting at `n`, each already stopped. -/
def dummyStopped : Nat → List TrackKind → List Track
  | _, [] => []
  | n, k :: ks => { id := n, kind := k, enabled := true, stopped := true } :: dummyStopped (n + 1) ks

/-- `requestPermissionAndPopulateDevices`: the promise chain acquires a dummy
stream (`res = some (dummy, devices)` carries the kinds of its tracks and the
`enumerateDevices` result), stops every dummy track, enumerates devices, and
populates `microphoneDevices` with the "audioinput" devices and then
`cameraDevices` with the "videoinput" devices; any failure in the chain
(`res = none`) is caught and stored as the static error string. -/
def requestPermissionAndPopulateDevices
    (res : Option (List TrackKind × List MediaDeviceInfo)) (s : ProviderState) : ProviderState :=
  match res with
  | none => { s with userMediaError := some staticUserMediaError }
  | some (dummy, devices) =>
      { s with
        tracks := s.tracks ++ dummyStopped s.nextId dummy
        nextId := s.nextId + dummy.length
        microphoneDevices := devices.filter fun d => d.kind = "audioinput"
        cameraDevices := devices.filter fun d => d.kind = "videoinput"
        events := s.events
          ++ (dummyStopped s.nextId dummy).map (fun t => Event.stopTrack t.id)
          ++ [Event.enumerateDevices, Event.setMicrophoneDevices, Event.setCameraDevices] }

/-- The `stream.getTracks().forEach` loop of
`requestPermissionAndStartDevices`: for each track of the acquired stream, an
"audio" track becomes a new `LocalTrack` installed as the active microphone
(with `setupLocalMicrophoneAnalyser` run on it), a "video" track becomes a new
`LocalTrack` installed as the active camera. -/
def startDevicesLoop : List TrackKind → ProviderState → ProviderState
  | [], s => s
  | TrackKind.audio :: ks, s =>
      startDevicesLoop ks
        { s with
          tracks := s.tracks ++ [{ id := s.nextId, kind := TrackKind.audio, enabled := true, stopped := false }]
          nextId := s.nextId + 1
          activeMicrophone := some s.nextId
          localAudioAnalyser := some s.nextId
          events := s.events ++ [Event.installMicrophone s.nextId] }
  | TrackKind.video :: ks, s =>
      startDevicesLoop ks
        { s with
          tracks := s.tracks ++ [{ id := s.nextId, kind := TrackKind.video, enabled := true, stopped := false }]
          nextId := s.nextId + 1
          activeCamera := some s.nextId
          events := s.events ++ [Event.installCamera s.nextId] }

/-- `requestPermissionAndStartDevices(microphoneDeviceId, cameraDeviceId)`:
`res = some ks` delivers the kinds of the tracks of the stream the browser
returned for the (possibly device-constrained) `getUserMedia` call; `res =
none` covers both the missing-`getUserMedia` throw and a rejected
acquisition, and the surrounding try/catch stores the static error string.
The two device-id arguments only shape the constraints handed to the
browser, which the environment argument already accounts for. -/
def requestPermissionAndStartDevices (microphoneDeviceId cameraDeviceId : Option String)
    (res : Option (List TrackKind)) (s : ProviderState) : ProviderState :=
  match res with
  | none => { s with userMediaError := some staticUserMediaError }
  | some ks => startDevicesLoop ks s

/-- `getCamera(deviceId)`: acquires a video-only stream (`ok` says whether
`getUserMedia` resolved), wraps its first video track in a `LocalTrack`,
installs it as the active camera and records the device id via
`setCameraDeviceId`, returning the new track. There is no try/catch: a
rejected acquisition propagates to the caller and changes nothing. -/
def getCamera (deviceId : String) (ok : Bool) (s : ProviderState) :
    ProviderState × Except Unit Nat :=
  if ok then
    ({ s with
        tracks := s.tracks ++ [{ id := s.nextId, kind := TrackKind.video, enabled := true, stopped := false }]
        nextId := s.nextId + 1
        activeCamera := some s.nextId
        cameraDeviceId := some deviceId
        events := s.events ++ [Event.installCamera s.nextId] }, Except.ok s.nextId)
  else (s, Except.error ())

/-- `stopActiveCamera`: if a camera is active, stop its track and clear the
slot; otherwise do nothing. -/
def stopActiveCamera (s : ProviderState) : ProviderState :=
  match s.activeCamera with
  | some tid =>
      { s with
        tracks := stopTrackIn s.tracks tid
        activeCamera := none
        events := s.events ++ [Event.stopTrack tid] }
  | none => s

/-- `changeActiveCamera(deviceId)`: `stopActiveCamera()` followed by
`getCamera(deviceId)`. -/
def changeActiveCamera (deviceId : String) (ok : Bool) (s : ProviderState) :
    ProviderState × Except Unit Nat :=
  getCamera deviceId ok (stopActiveCamera s)

/-- `getMicrophone(deviceId)`: acquires an audio-only stream, wraps its first
audio track in a `LocalTrack`, installs it as the active microphone, runs
`setupLocalMicrophoneAnalyser` on it and records the device id via
`setMicrophoneDeviceId`. There is no try/catch: a rejected acquisition
propagates to the caller and changes nothing. -/
def getMicrophone (deviceId : String) (ok : Bool) (s : ProviderState) :
    ProviderState × Except Unit Nat :=
  if ok then
    ({ s with
        tracks := s.tracks ++ [{ id := s.nextId, kind := TrackKind.audio, enabled := true, stopped := false }]
        nextId := s.nextId + 1
        activeMicrophone := some s.nextId
        localAudioAnalyser := some s.nextId
        microphoneDeviceId := some deviceId
        events := s.events ++ [Event.installMicrophone s.nextId] }, Except.ok s.nextId)
  else (s, Except.error ())

/-- `muteActiveMicrophone`: if a microphone is active, set its track's
`enabled` flag to false. -/
def muteActiveMicrophone (s : ProviderState) : ProviderState :=
  match s.activeMicrophone with
  | some tid => { s with tracks := setEnabledIn s.tracks tid false }
  | none => s

/-- `unMuteActiveMicrophone`: if a microphone is active, set its track's
`enabled` flag to true. -/
def unMuteActiveMicrophone (s : ProviderState) : ProviderState :=
  match s.activeMicrophone with
  | some tid => { s with tracks := setEnabledIn s.tracks tid true }
  | none => s

/-- `changeActiveMicrophone(deviceId)`: stop the active microphone's track if
there is one (the slot itself is not cleared), then `getMicrophone(deviceId)`. -/
def changeActiveMicrophone (deviceId : String) (ok : Bool) (s : ProviderState) :
    ProviderState × Except Unit Nat :=
  match s.activeMicrophone with
  | some tid =>
      getMicrophone deviceId ok
        { s with
          tracks := stopTrackIn s.tracks tid
          events := s.events ++ [Event.stopTrack tid] }
  | none => getMicrophone deviceId ok s

/-- `getActiveMicrophoneLevel`: returns null when there is no active
microphone or no local audio analyser; otherwise reads the analyser's byte
frequency data (`data`, the environment's snapshot), and returns `avgDb` as
`values.reduce((a, b) => a + b, 0) / values.length` and `peakDb` as
`Math.max(...values)` (byte values are nonnegative, so the fold from 0
realises the maximum on the nonempty arrays an analyser produces). -/
def getActiveMicrophoneLevel (data : List Nat) (s : ProviderState) : Option (ℚ × ℚ) :=
  match s.activeMicrophone, s.localAudioAnalyser with
  | some _, some _ =>
      some ((data.foldl (· + ·) 0 : Nat) / (data.length : ℚ),
            ((data.foldl max 0 : Nat) : ℚ))
  | _, _ => none

/-- The exposed operations of the provider, each carrying the environment's
response where the operation consults the browser. -/
inductive Op where
  | requestPermissionAndPopulateDevices (res : Option (List TrackKind × List MediaDeviceInfo))
  | requestPermissionAndStartDevices (microphoneDeviceId cameraDeviceId : Option String)
      (res : Option (List TrackKind))
  | getCamera (deviceId : String) (ok : Bool)
  | stopActiveCamera
  | changeActiveCamera (deviceId : String) (ok : Bool)
  | getMicrophone (deviceId : String) (ok : Bool)
  | muteActiveMicrophone
  | unMuteActiveMicrophone
  | changeActiveMicrophone (deviceId : String) (ok : Bool)
deriving DecidableEq

/-- One step of the provider state machine. -/
def applyOp (op : Op) (s : ProviderState) : ProviderState :=
  match op with
  | Op.requestPermissionAndPopulateDevices res => requestPermissionAndPopulateDevices res s
  | Op.requestPermissionAndStartDevices m c res => requestPermissionAndStartDevices m c res s
  | Op.getCamera d ok => (getCamera d ok s).1
  | Op.stopActiveCamera => stopActiveCamera s
  | Op.changeActiveCamera d ok => (changeActiveCamera d ok s).1
  | Op.getMicrophone d ok => (getMicrophone d ok s).1
  | Op.muteActiveMicrophone => muteActiveMicrophone s
  | Op.unMuteActiveMicrophone => unMuteActiveMicrophone s
  | Op.changeActiveMicrophone d ok => (changeActiveMicrophone d ok s).1

/-- The state reached from the initial state by a sequence of operations. -/
def run (l : List Op) : ProviderState :=
  l.foldl (fun s op => applyOp op s) initState

/-- `t` is the track currently installed as the active camera. -/
def isActiveCameraTrack (s : ProviderState) (t : Track) : Prop :=
  t ∈ s.tracks ∧ s.activeCamera = some t.id

/-- `t` is the track currently installed as the active microphone. -/
def isActiveMicrophoneTrack (s : ProviderState) (t : Track) : Prop :=
  t ∈ s.tracks ∧ s.activeMicrophone = some t.id

instance (s : ProviderState) (t : Track) : Decidable (isActiveCameraTrack s t) := by
  unfold isActiveCameraTrack
  infer_instance

instance (s : ProviderState) (t : Track) : Decidable (isActiveMicrophoneTrack s t) := by
  unfold isActiveMicrophoneTrack
  infer_instance

/-- Well-formedness of the track registry: ids are below the fresh-id counter
and pairwise distinct. -/
def tracksWf (s : ProviderState) : Prop :=
  (∀ t ∈ s.tracks, t.id < s.nextId) ∧ (s.tracks.map Track.id).Nodup

/-- A box computed by the layout helper: a width and height in pixels. -/
structure Box where
  width : ℚ
  height : ℚ
deriving DecidableEq

/-- A valid React element among the children: an identifying key and the
`width`/`height` props that `cloneElement` may inject (other props are
untouched by the layout and folded into `key`). -/
structure RElement where
  key : Nat
  width : Option ℚ
  height : Option ℚ
deriving DecidableEq

/-- A React child node: either a valid element (`isValidElement` true) or a
non-element node such as a text or number child. -/
inductive RChild where
  | element (e : RElement)
  | textNode (s : String)
deriving DecidableEq

/-- `isValidElement(child)`. -/
def isValidElement : RChild → Bool
  | RChild.element _ => true
  | RChild.textNode _ => false

/-- The `gap` prop with its default: `gap = 10`. -/
def galleryGap (gap : Option ℚ) : ℚ :=
  gap.getD 10

/-- `Children.count(children)`: 0 for absent children, the list length
otherwise. -/
def childrenCount (children : Option (List RChild)) : Nat :=
  match children with
  | none => 0
  | some l => l.length

/-- The `bestFit` memo of `GalleryLayout`: when `children` is truthy, call
the box-computation helper with the viewport width and height, the child
count, the fixed 16 / 9 aspect ratio and the gap; otherwise no result. -/
def galleryBestFit (calcBoxes : ℚ → ℚ → Nat → ℚ → ℚ → Option Box)
    (children : Option (List RChild)) (width height gap : ℚ) : Option Box :=
  match children with
  | none => none
  | some l => calcBoxes width height l.length ((16 : ℚ) / 9) gap

/-- The per-child body of the `Children.map` in `GalleryLayout`: a valid
element is cloned with the computed width and height injected when `bestFit`
exists with truthy (nonzero) width and height; otherwise the child is
returned as is. -/
def renderGalleryChild (bestFit : Option Box) (c : RChild) : RChild :=
  match c with
  | RChild.element e =>
      match bestFit with
      | some b =>
          if b.width ≠ 0 ∧ b.height ≠ 0 then
            RChild.element { e with width := some b.width, height := some b.height }
          else c
      | none => c
  | RChild.textNode _ => c

/-- `GalleryLayout`, parameterised by the box-computation helper it calls:
computes `bestFit` and maps every child through the clone-or-keep body. -/
def GalleryLayout (calcBoxes : ℚ → ℚ → Nat → ℚ → ℚ → Option Box)
    (children : Option (List RChild)) (width height : ℚ) (gap : Option ℚ) :
    Option (List RChild) :=
  let bestFit := galleryBestFit calcBoxes children width height (galleryGap gap)
  match children with
  | none => none
  | some l => some (l.map (renderGalleryChild bestFit))

/-- The claim's description of prop injection: clone a valid element with the
computed box's width and height as props, leave other children unmodified. -/
def injectSize (b : Box) (c : RChild) : RChild :=
  match c with
  | RChild.element e => RChild.element { e with width := some b.width, height := some b.height }
  | RChild.textNode t => RChild.textNode t

/-!
`calcOptimalBoxes` (lib/gallery) is not part of the provided sources; the
following definitions are modelled from the spec, which describes it as
computing "box dimensions that best fill the viewport while preserving
aspect ratio" — "a grid arrangement algorithm fitting N boxes of fixed
aspect ratio into a bounded viewport" with a pixel gap between boxes. With
`cols` columns the `n` boxes need `⌈n / cols⌉` rows; the box width for that
column count is the largest width such that `cols` boxes (plus the gaps
between them) fit the viewport width and the corresponding `rows` box
heights (plus gaps) fit the viewport height at the fixed aspect ratio.
-/

/-- Modelled from the spec: the number of grid rows needed to fit `n` boxes
in `cols` columns. -/
def boxRows (n cols : Nat) : Nat :=
  (n + cols - 1) / cols

/-- Modelled from the spec: the extent available to the boxes along one axis
once the gaps between `k` boxes are taken out of the viewport extent. -/
def boxAvail (extent gap : ℚ) (k : Nat) : ℚ :=
  max 0 (extent - gap * ((k : ℚ) - 1))

/-- Modelled from the spec: the largest box width such that `cols` boxes fit
the available width and the corresponding `boxRows n cols` box heights fit
the available height at the fixed aspect ratio. -/
def boxWidthFor (width height ratio gap : ℚ) (n cols : Nat) : ℚ :=
  min (boxAvail width gap cols / (cols : ℚ))
    (boxAvail height gap (boxRows n cols) / ((boxRows n cols : Nat) : ℚ) * ratio)

/-- Modelled from the spec: the box candidate for a given column count, at
the fixed aspect ratio. -/
def boxCandidate (width height : ℚ) (n cols : Nat) (ratio gap : ℚ) : Box :=
  { width := boxWidthFor width height ratio gap n cols
    height := boxWidthFor width height ratio gap n cols / ratio }

/-- The better of two candidate boxes: the one with the larger width. -/
def betterBox (a b : Box) : Box :=
  if b.width > a.width then b else a

/-- Modelled from the spec: `calcOptimalBoxes` (lib/gallery, external
helper absent from the excerpt) "computes box dimensions that best fill the
viewport while preserving aspect ratio", given the viewport width and
height, the number of boxes, the fixed aspect ratio and the gap: it tries
every column count from 1 to `n` and keeps the candidate with the largest
box width; with no boxes there is no result. -/
def calcOptimalBoxes (width height : ℚ) (n : Nat) (ratio gap : ℚ) : Option Box :=
  match n with
  | 0 => none
  | m + 1 =>
      some ((((List.range (m + 1)).map
          fun i => boxCandidate width height (m + 1) (i + 1) ratio gap).foldl
        betterBox (boxCandidate width height (m + 1) 1 ratio gap)))

lemma map_id_stopTrackIn (ts : List Track) (tid : Nat) :
    (stopTrackIn ts tid).map Track.id = ts.map Track.id := by
  unfold stopTrackIn
  rw [List.map_map]
  apply List.map_congr_left
  intro t _
  by_cases h : t.id = tid <;> simp [Function.comp, h]

lemma map_id_setEnabledIn (ts : List Track) (tid : Nat) (b : Bool) :
    (setEnabledIn ts tid b).map Track.id = ts.map Track.id := by
  unfold setEnabledIn
  rw [List.map_map]
  apply List.map_congr_left
  intro t _
  by_cases h : t.id = tid <;> simp [Function.comp, h]

lemma idBound_of_map_id_eq {ts us : List Track} {n : Nat}
    (h : us.map Track.id = ts.map Track.id) (hb : ∀ t ∈ ts, t.id < n) :
    ∀ t ∈ us, t.id < n := by
  intro t ht
  have hmem : t.id ∈ us.map Track.id := List.mem_map_of_mem Track.id ht
  rw [h] at hmem
  obtain ⟨u, hu, he⟩ := List.mem_map.mp hmem
  exact he ▸ hb u hu

lemma nodup_map_id_append {ts us : List Track} {n : Nat}
    (hts : ∀ t ∈ ts, t.id < n) (hus : ∀ t ∈ us, n ≤ t.id)
    (h1 : (ts.map Track.id).Nodup) (h2 : (us.map Track.id).Nodup) :
    ((ts ++ us).map Track.id).Nodup := by
  rw [List.map_append, List.nodup_append]
  refine ⟨h1, h2, ?_⟩
  intro a ha hb
  obtain ⟨t, ht, he⟩ := List.mem_map.mp ha
  obtain ⟨u, hu, he'⟩ := List.mem_map.mp hb
  have h3 : a < n := he ▸ hts t ht
  have h4 : n ≤ a := he' ▸ hus u hu
  omega

lemma track_eq_of_id_eq {ts : List Track} (h : (ts.map Track.id).Nodup)
    {t₁ t₂ : Track} (h₁ : t₁ ∈ ts) (h₂ : t₂ ∈ ts) (hid : t₁.id = t₂.id) : t₁ = t₂ := by
  induction ts with
  | nil => cases h₁
  | cons a ts ih =>
      rw [List.map_cons, List.nodup_cons] at h
      rcases List.mem_cons.mp h₁ with e₁ | m₁ <;> rcases List.mem_cons.mp h₂ with e₂ | m₂
      · rw [e₁, e₂]
      · exfalso
        apply h.1
        have hmem : t₂.id ∈ ts.map Track.id := List.mem_map_of_mem Track.id m₂
        rw [← hid, e₁] at hmem
        exact hmem
      · exfalso
        apply h.1
        have hmem : t₁.id ∈ ts.map Track.id := List.mem_map_of_mem Track.id m₁
        rw [hid, e₂] at hmem
        exact hmem
      · exact ih h.2 m₁ m₂

lemma tracksWf_append_one {s : ProviderState} (hwf : tracksWf s) {t : Track}
    (ht : t.id = s.nextId) :
    (∀ u ∈ s.tracks ++ [t], u.id < s.nextId + 1) ∧
      ((s.tracks ++ [t]).map Track.id).Nodup := by
  constructor
  · intro u hu
    rcases List.mem_append.mp hu with h | h
    · exact Nat.lt_succ_of_lt (hwf.1 u h)
    · rw [List.mem_singleton.mp h, ht]
      exact Nat.lt_succ_self _
  · apply nodup_map_id_append hwf.1 _ hwf.2
    · simp
    · intro u hu
      rw [List.mem_singleton.mp hu, ht]

lemma dummyStopped_id_bounds :
    ∀ (ks : List TrackKind) (n : Nat), ∀ t ∈ dummyStopped n ks, n ≤ t.id ∧ t.id < n + ks.length := by
  intro ks
  induction ks with
  | nil => intro n t ht; cases ht
  | cons k ks ih =>
      intro n t ht
      rcases List.mem_cons.mp ht with h | h
      · subst h
        refine ⟨Nat.le_refl _, ?_⟩
        show n < n + (k :: ks).length
        simp only [List.length_cons]
        omega
      · have h2 := ih (n + 1) t h
        simp only [List.length_cons]
        omega

lemma dummyStopped_map_id_nodup :
    ∀ (ks : List TrackKind) (n : Nat), ((dummyStopped n ks).map Track.id).Nodup := by
  intro ks
  induction ks with
  | nil => intro n; simp [dummyStopped]
  | cons k ks ih =>
      intro n
      rw [dummyStopped, List.map_cons, List.nodup_cons]
      refine ⟨?_, ih (n + 1)⟩
      intro hmem
      obtain ⟨t, ht, he⟩ := List.mem_map.mp hmem
      have hlow := (dummyStopped_id_bounds ks (n + 1) t ht).1
      have he' : t.id = n := he
      omega

lemma dummyStopped_all_stopped :
    ∀ (ks : List TrackKind) (n : Nat), ∀ t ∈ dummyStopped n ks, t.stopped = true := by
  intro ks
  induction ks with
  | nil => intro n t ht; cases ht
  | cons k ks ih =>
      intro n t ht
      rcases List.mem_cons.mp ht with h | h
      · rw [h]
      · exact ih (n + 1) t h

lemma dummyStopped_length :
    ∀ (ks : List TrackKind) (n : Nat), (dummyStopped n ks).length = ks.length := by
  intro ks
  induction ks with
  | nil => intro n; rfl
  | cons k ks ih => intro n; simp [dummyStopped, ih (n + 1)]

lemma tracksWf_requestPermissionAndPopulateDevices
    (res : Option (List TrackKind × List MediaDeviceInfo)) (s : ProviderState)
    (h : tracksWf s) : tracksWf (requestPermissionAndPopulateDevices res s) := by
  match res with
  | none => exact h
  | some (dummy, devices) =>
      constructor
      · intro t ht
        simp only [requestPermissionAndPopulateDevices] at ht ⊢
        rcases List.mem_append.mp ht with hm | hm
        · have := h.1 t hm
          omega
        · exact (dummyStopped_id_bounds dummy s.nextId t hm).2
      · simp only [requestPermissionAndPopulateDevices]
        apply nodup_map_id_append h.1 _ h.2 (dummyStopped_map_id_nodup dummy s.nextId)
        intro t ht
        exact (dummyStopped_id_bounds dummy s.nextId t ht).1

lemma tracksWf_startDevicesLoop :
    ∀ (ks : List TrackKind) (s : ProviderState), tracksWf s → tracksWf (startDevicesLoop ks s) := by
  intro ks
  induction ks with
  | nil => intro s h; exact h
  | cons k ks ih =>
      intro s h
      cases k
      · exact ih _ (tracksWf_append_one h rfl)
      · exact ih _ (tracksWf_append_one h rfl)

lemma tracksWf_requestPermissionAndStartDevices (m c : Option String)
    (res : Option (List TrackKind)) (s : ProviderState) (h : tracksWf s) :
    tracksWf (requestPermissionAndStartDevices m c res s) := by
  match res with
  | none => exact h
  | some ks => exact tracksWf_startDevicesLoop ks s h

lemma tracksWf_getCamera (d : String) (ok : Bool) (s : ProviderState) (h : tracksWf s) :
    tracksWf (getCamera d ok s).1 := by
  cases ok
  · exact h
  · exact tracksWf_append_one h rfl

lemma tracksWf_getMicrophone (d : String) (ok : Bool) (s : ProviderState) (h : tracksWf s) :
    tracksWf (getMicrophone d ok s).1 := by
  cases ok
  · exact h
  · exact tracksWf_append_one h rfl

lemma tracksWf_stopActiveCamera (s : ProviderState) (h : tracksWf s) :
    tracksWf (stopActiveCamera s) := by
  unfold stopActiveCamera
  match s.activeCamera with
  | none => exact h
  | some tid =>
      exact ⟨idBound_of_map_id_eq (map_id_stopTrackIn s.tracks tid) h.1,
        (map_id_stopTrackIn s.tracks tid).symm ▸ h.2⟩

lemma tracksWf_changeActiveCamera (d : String) (ok : Bool) (s : ProviderState) (h : tracksWf s) :
    tracksWf (changeActiveCamera d ok s).1 :=
  tracksWf_getCamera d ok _ (tracksWf_stopActiveCamera s h)

lemma tracksWf_muteActiveMicrophone (s : ProviderState) (h : tracksWf s) :
    tracksWf (muteActiveMicrophone s) := by
  unfold muteActiveMicrophone
  match s.activeMicrophone with
  | none => exact h
  | some tid =>
      exact ⟨idBound_of_map_id_eq (map_id_setEnabledIn s.tracks tid false) h.1,
        (map_id_setEnabledIn s.tracks tid false).symm ▸ h.2⟩

lemma tracksWf_unMuteActiveMicrophone (s : ProviderState) (h : tracksWf s) :
    tracksWf (unMuteActiveMicrophone s) := by
  unfold unMuteActiveMicrophone
  match s.activeMicrophone with
  | none => exact h
  | some tid =>
      exact ⟨idBound_of_map_id_eq (map_id_setEnabledIn s.tracks tid true) h.1,
        (map_id_setEnabledIn s.tracks tid true).symm ▸ h.2⟩

lemma tracksWf_changeActiveMicrophone (d : String) (ok : Bool) (s : ProviderState)
    (h : tracksWf s) : tracksWf (changeActiveMicrophone d ok s).1 := by
  unfold changeActiveMicrophone
  match s.activeMicrophone with
  | none => exact tracksWf_getMicrophone d ok s h
  | some tid =>
      apply tracksWf_getMicrophone
      exact ⟨idBound_of_map_id_eq (map_id_stopTrackIn s.tracks tid) h.1,
        (map_id_stopTrackIn s.tracks tid).symm ▸ h.2⟩

lemma tracksWf_applyOp (op : Op) (s : ProviderState) (h : tracksWf s) :
    tracksWf (applyOp op s) := by
  cases op with
  | requestPermissionAndPopulateDevices res =>
      exact tracksWf_requestPermissionAndPopulateDevices res s h
  | requestPermissionAndStartDevices m c res =>
      exact tracksWf_requestPermissionAndStartDevices m c res s h
  | getCamera d ok => exact tracksWf_getCamera d ok s h
  | stopActiveCamera => exact tracksWf_stopActiveCamera s h
  | changeActiveCamera d ok => exact tracksWf_changeActiveCamera d ok s h
  | getMicrophone d ok => exact tracksWf_getMicrophone d ok s h
  | muteActiveMicrophone => exact tracksWf_muteActiveMicrophone s h
  | unMuteActiveMicrophone => exact tracksWf_unMuteActiveMicrophone s h
  | changeActiveMicrophone d ok => exact tracksWf_changeActiveMicrophone d ok s h

lemma foldl_applyOp_invariant {P : ProviderState → Prop}
    (hstep : ∀ op s, P s → P (applyOp op s)) :
    ∀ (l : List Op) (s : ProviderState), P s → P (l.foldl (fun s op => applyOp op s) s) := by
  intro l
  induction l with
  | nil => intro s h; exact h
  | cons op l ih => intro s h; exact ih _ (hstep op s h)

lemma tracksWf_run (l : List Op) : tracksWf (run l) := by
  apply foldl_applyOp_invariant tracksWf_applyOp
  exact ⟨fun t ht => absurd ht (List.not_mem_nil t), List.nodup_nil⟩

/-- The error slot only ever holds nothing or the single static string. -/
def errorOk (s : ProviderState) : Prop :=
  s.userMediaError = none ∨ s.userMediaError = some staticUserMediaError

lemma startDevicesLoop_userMediaError :
    ∀ (ks : List TrackKind) (s : ProviderState),
      (startDevicesLoop ks s).userMediaError = s.userMediaError := by
  intro ks
  induction ks with
  | nil => intro s; rfl
  | cons k ks ih =>
      intro s
      cases k
      · exact ih _
      · exact ih _

lemma errorOk_applyOp (op : Op) (s : ProviderState) (h : errorOk s) : errorOk (applyOp op s) := by
  cases op with
  | requestPermissionAndPopulateDevices res =>
      match res with
      | none => exact Or.inr rfl
      | some (dummy, devices) => exact h
  | requestPermissionAndStartDevices m c res =>
      match res with
      | none => exact Or.inr rfl
      | some ks =>
          show errorOk (startDevicesLoop ks s)
          unfold errorOk
          rw [startDevicesLoop_userMediaError ks s]
          exact h
  | getCamera d ok => cases ok <;> exact h
  | stopActiveCamera =>
      unfold applyOp stopActiveCamera
      match s.activeCamera with
      | none => exact h
      | some tid => exact h
  | changeActiveCamera d ok =>
      have hs : errorOk (stopActiveCamera s) := by
        unfold stopActiveCamera
        match s.activeCamera with
        | none => exact h
        | some tid => exact h
      show errorOk (getCamera d ok (stopActiveCamera s)).1
      cases ok <;> exact hs
  | getMicrophone d ok => cases ok <;> exact h
  | muteActiveMicrophone =>
      unfold applyOp muteActiveMicrophone
      match s.activeMicrophone with
      | none => exact h
      | some tid => exact h
  | unMuteActiveMicrophone =>
      unfold applyOp unMuteActiveMicrophone
      match s.activeMicrophone with
      | none => exact h
      | some tid => exact h
  | changeActiveMicrophone d ok =>
      unfold applyOp changeActiveMicrophone
      match s.activeMicrophone with
      | none => cases ok <;> exact h
      | some tid => cases ok <;> exact h

lemma errorOk_run (l : List Op) : errorOk (run l) := by
  apply foldl_applyOp_invariant errorOk_applyOp
  exact Or.inl rfl

/-- `startDevicesLoop` only appends: old tracks are kept unchanged, and the
appended events contain no `stopTrack`. -/
lemma startDevicesLoop_extends :
    ∀ (ks : List TrackKind) (s : ProviderState), ∃ ts es,
      (startDevicesLoop ks s).tracks = s.tracks ++ ts ∧
      (startDevicesLoop ks s).events = s.events ++ es ∧
      ∀ i, Event.stopTrack i ∉ es := by
  intro ks
  induction ks with
  | nil =>
      intro s
      exact ⟨[], [], by simp [startDevicesLoop], by simp [startDevicesLoop],
        fun i => List.not_mem_nil _⟩
  | cons k ks ih =>
      intro s
      cases k
      case audio =>
        obtain ⟨ts, es, h1, h2, h3⟩ := ih
          { s with
            tracks := s.tracks ++ [{ id := s.nextId, kind := TrackKind.audio, enabled := true, stopped := false }]
            nextId := s.nextId + 1
            activeMicrophone := some s.nextId
            localAudioAnalyser := some s.nextId
            events := s.events ++ [Event.installMicrophone s.nextId] }
        refine ⟨{ id := s.nextId, kind := TrackKind.audio, enabled := true, stopped := false } :: ts,
          Event.installMicrophone s.nextId :: es, ?_, ?_, ?_⟩
        · rw [startDevicesLoop, h1]; simp
        · rw [startDevicesLoop, h2]; simp
        · intro i hmem
          rcases List.mem_cons.mp hmem with hc | hc
          · cases hc
          · exact h3 i hc
      case video =>
        obtain ⟨ts, es, h1, h2, h3⟩ := ih
          { s with
            tracks := s.tracks ++ [{ id := s.nextId, kind := TrackKind.video, enabled := true, stopped := false }]
            nextId := s.nextId + 1
            activeCamera := some s.nextId
            events := s.events ++ [Event.installCamera s.nextId] }
        refine ⟨{ id := s.nextId, kind := TrackKind.video, enabled := true, stopped := false } :: ts,
          Event.installCamera s.nextId :: es, ?_, ?_, ?_⟩
        · rw [startDevicesLoop, h1]; simp
        · rw [startDevicesLoop, h2]; simp
        · intro i hmem
          rcases List.mem_cons.mp hmem with hc | hc
          · cases hc
          · exact h3 i hc

lemma setEnabledIn_idem (ts : List Track) (tid : Nat) (b : Bool) :
    setEnabledIn (setEnabledIn ts tid b) tid b = setEnabledIn ts tid b := by
  unfold setEnabledIn
  rw [List.map_map]
  apply List.map_congr_left
  intro t _
  by_cases h : t.id = tid <;> simp [Function.comp, h]

lemma setEnabledIn_enabled (ts : List Track) (tid : Nat) (b : Bool) :
    ∀ t ∈ setEnabledIn ts tid b, t.id = tid → t.enabled = b := by
  intro t ht hid
  unfold setEnabledIn at ht
  obtain ⟨u, hu, he⟩ := List.mem_map.mp ht
  by_cases h : u.id = tid
  · rw [← he]
    simp [h]
  · rw [← he] at hid
    simp [h] at hid

lemma stopTrackIn_stopped (ts : List Track) (tid : Nat) :
    ∀ t ∈ stopTrackIn ts tid, t.id = tid → t.stopped = true := by
  intro t ht hid
  unfold stopTrackIn at ht
  obtain ⟨u, hu, he⟩ := List.mem_map.mp ht
  by_cases h : u.id = tid
  · rw [← he]
    simp [h]
  · rw [← he] at hid
    simp [h] at hid

lemma foldl_add_eq_sum : ∀ (l : List Nat) (a : Nat), l.foldl (· + ·) a = a + l.sum := by
  intro l
  induction l with
  | nil => intro a; simp
  | cons x l ih =>
      intro a
      rw [List.foldl_cons, ih, List.sum_cons]
      omega

lemma foldl_max_le : ∀ (l : List Nat) (a : Nat), ∀ x ∈ l, x ≤ l.foldl max a := by
  intro l
  induction l with
  | nil => intro a x hx; cases hx
  | cons y l ih =>
      intro a x hx
      rcases List.mem_cons.mp hx with h | h
      · subst h
        calc x ≤ max a x := le_max_right a x
        _ ≤ l.foldl max (max a x) := by
            clear ih hx
            induction l generalizing a x with
            | nil => exact le_refl _
            | cons z l ih2 =>
                rw [List.foldl_cons]
                calc max a x ≤ max (max a x) z := le_max_left _ z
                _ ≤ l.foldl max (max (max a x) z) := by
                    have := ih2 (max a x) z
                    simpa using this
      · exact ih (max a y) x h

lemma foldl_max_mem : ∀ (l : List Nat) (a : Nat), l.foldl max a = a ∨ l.foldl max a ∈ l := by
  intro l
  induction l with
  | nil => intro a; exact Or.inl rfl
  | cons y l ih =>
      intro a
      rw [List.foldl_cons]
      rcases ih (max a y) with h | h
      · rw [h]
        rcases Nat.le_total a y with hy | hy
        · rw [Nat.max_eq_right hy]
          exact Or.inr (List.mem_cons_self y l)
        · rw [Nat.max_eq_left hy]
          exact Or.inl rfl
      · exact Or.inr (List.mem_cons_of_mem y h)

lemma foldl_betterBox_prop (P : Box → Prop) :
    ∀ (l : List Box) (a : Box), P a → (∀ b ∈ l, P b) → P (l.foldl betterBox a) := by
  intro l
  induction l with
  | nil => intro a ha _; exact ha
  | cons b l ih =>
      intro a ha hl
      rw [List.foldl_cons]
      apply ih
      · unfold betterBox
        split
        · exact hl b (List.mem_cons_self b l)
        · exact ha
      · intro c hc
        exact hl c (List.mem_cons_of_mem b hc)

lemma boxCandidate_rows_pos {n cols : Nat} (hn : 1 ≤ n) (hc : 1 ≤ cols) :
    1 ≤ (n + cols - 1) / cols := by
  rw [Nat.le_div_iff_mul_le (by omega : 0 < cols)]
  omega

lemma boxAvail_le (extent gap : ℚ) (k : Nat) (he : 0 ≤ extent) (hg : 0 ≤ gap)
    (hk : 1 ≤ k) : boxAvail extent gap k ≤ extent := by
  unfold boxAvail
  apply max_le he
  apply sub_le_self
  apply mul_nonneg hg
  have hkq : (1 : ℚ) ≤ (k : ℚ) := by exact_mod_cast hk
  linarith

lemma boxCandidate_within (width height ratio gap : ℚ) (n cols : Nat)
    (hw : 0 ≤ width) (hh : 0 ≤ height) (hg : 0 ≤ gap) (hr : 0 < ratio)
    (hc : 1 ≤ cols) (hn : 1 ≤ n) :
    (boxCandidate width height n cols ratio gap).width ≤ width ∧
      (boxCandidate width height n cols ratio gap).height ≤ height := by
  have hrows : 1 ≤ boxRows n cols := boxCandidate_rows_pos hn hc
  have hcq : (1 : ℚ) ≤ (cols : ℚ) := by exact_mod_cast hc
  have hrq : (1 : ℚ) ≤ ((boxRows n cols : Nat) : ℚ) := by exact_mod_cast hrows
  have hcq0 : (0 : ℚ) < (cols : ℚ) := lt_of_lt_of_le one_pos hcq
  have hrq0 : (0 : ℚ) < ((boxRows n cols : Nat) : ℚ) := lt_of_lt_of_le one_pos hrq
  have havailW : boxAvail width gap cols ≤ width := boxAvail_le width gap cols hw hg hc
  have havailH : boxAvail height gap (boxRows n cols) ≤ height :=
    boxAvail_le height gap (boxRows n cols) hh hg hrows
  constructor
  · show boxWidthFor width height ratio gap n cols ≤ width
    calc boxWidthFor width height ratio gap n cols
        ≤ boxAvail width gap cols / (cols : ℚ) := min_le_left _ _
      _ ≤ width / (cols : ℚ) := (div_le_div_right hcq0).mpr havailW
      _ ≤ width := div_le_self hw hcq
  · show boxWidthFor width height ratio gap n cols / ratio ≤ height
    calc boxWidthFor width height ratio gap n cols / ratio
        ≤ boxAvail height gap (boxRows n cols) / ((boxRows n cols : Nat) : ℚ) * ratio / ratio :=
          (div_le_div_right hr).mpr (min_le_right _ _)
      _ = boxAvail height gap (boxRows n cols) / ((boxRows n cols : Nat) : ℚ) :=
          mul_div_cancel_right₀ _ (ne_of_gt hr)
      _ ≤ height / ((boxRows n cols : Nat) : ℚ) := (div_le_div_right hrq0).mpr havailH
      _ ≤ height := div_le_self hh hrq

lemma calcOptimalBoxes_within (width height ratio gap : ℚ) (n : Nat)
    (hw : 0 ≤ width) (hh : 0 ≤ height) (hg : 0 ≤ gap) (hr : 0 < ratio) (b : Box)
    (hb : calcOptimalBoxes width height n ratio gap = some b) :
    b.width ≤ width ∧ b.height ≤ height := by
  match n, hb with
  | m + 1, hb =>
      rw [calcOptimalBoxes, Option.some_inj] at hb
      rw [← hb]
      apply foldl_betterBox_prop (fun x => x.width ≤ width ∧ x.height ≤ height)
      · exact boxCandidate_within width height ratio gap (m + 1) 1 hw hh hg hr
          (Nat.le_refl 1) (Nat.succ_le_succ (Nat.zero_le m))
      · intro c hc
        obtain ⟨i, hi, he⟩ := List.mem_map.mp hc
        rw [← he]
        exact boxCandidate_within width height ratio gap (m + 1) (i + 1) hw hh hg hr
          (Nat.succ_le_succ (Nat.zero_le i)) (Nat.succ_le_succ (Nat.zero_le m))

/-- C10: `stopActiveCamera` is idempotent and a no-op when no camera is
active: after one call the `activeCamera` slot is cleared, a second
consecutive call leaves the entire provider state (registry, slots, trace)
unchanged, and when `activeCamera` is already clear a call changes nothing
and stops no track. -/
theorem stopActiveCamera_idempotent (s : ProviderState) :
    stopActiveCamera (stopActiveCamera s) = stopActiveCamera s ∧
      (stopActiveCamera s).activeCamera = none ∧
      (s.activeCamera = none → stopActiveCamera s = s) := by
  cases hc : s.activeCamera with
  | none =>
      have h1 : stopActiveCamera s = s := by simp [stopActiveCamera, hc]
      refine ⟨?_, ?_, fun _ => h1⟩
      · rw [h1, h1]
      · rw [h1]
        exact hc
  | some tid =>
      have h1 : stopActiveCamera s =
          { s with
            tracks := stopTrackIn s.tracks tid
            activeCamera := none
            events := s.events ++ [Event.stopTrack tid] } := by
        simp [stopActiveCamera, hc]
      refine ⟨?_, ?_, ?_⟩
      · rw [h1]
        simp [stopActiveCamera]
      · rw [h1]
      · intro h
        simp [hc] at h

/-- C10 witness: on the initial state (no active camera) `stopActiveCamera`
changes nothing. -/
theorem stopActiveCamera_idempotent_witness :
    stopActiveCamera initState = initState :=
  (stopActiveCamera_idempotent initState).2.2 rfl

/-- C5: `muteActiveMicrophone` and `unMuteActiveMicrophone` are idempotent
(applying either twice equals applying it once, on the entire provider
state) and each works by setting the active microphone track's
`enabled` flag (to false for mute, true for unmute). -/
theorem mute_unmute_idempotent (s : ProviderState) :
    muteActiveMicrophone (muteActiveMicrophone s) = muteActiveMicrophone s ∧
    unMuteActiveMicrophone (unMuteActiveMicrophone s) = unMuteActiveMicrophone s ∧
    (∀ tid, s.activeMicrophone = some tid →
      ∀ t ∈ (muteActiveMicrophone s).tracks, t.id = tid → t.enabled = false) ∧
    (∀ tid, s.activeMicrophone = some tid →
      ∀ t ∈ (unMuteActiveMicrophone s).tracks, t.id = tid → t.enabled = true) := by
  cases hm : s.activeMicrophone with
  | none =>
      have h1 : muteActiveMicrophone s = s := by simp [muteActiveMicrophone, hm]
      have h2 : unMuteActiveMicrophone s = s := by simp [unMuteActiveMicrophone, hm]
      refine ⟨by rw [h1, h1], by rw [h2, h2], ?_, ?_⟩ <;>
        · intro tid htid
          exact absurd htid (by simp)
  | some tid =>
      have h1 : muteActiveMicrophone s = { s with tracks := setEnabledIn s.tracks tid false } := by
        simp [muteActiveMicrophone, hm]
      have h2 : unMuteActiveMicrophone s = { s with tracks := setEnabledIn s.tracks tid true } := by
        simp [unMuteActiveMicrophone, hm]
      refine ⟨?_, ?_, ?_, ?_⟩
      · rw [h1]
        simp [muteActiveMicrophone, hm, setEnabledIn_idem]
      · rw [h2]
        simp [unMuteActiveMicrophone, hm, setEnabledIn_idem]
      · intro tid' htid'
        injection htid' with he
        subst he
        rw [h1]
        exact setEnabledIn_enabled s.tracks tid false
      · intro tid' htid'
        injection htid' with he
        subst he
        rw [h2]
        exact setEnabledIn_enabled s.tracks tid true

/-- C5 witness: after acquiring a microphone and muting, the active
microphone track's enabled flag is false. -/
theorem mute_unmute_idempotent_witness :
    (Track.mk 0 TrackKind.audio false false).enabled = false :=
  (mute_unmute_idempotent (run [Op.getMicrophone "m" true])).2.2.1 0 (by decide)
    (Track.mk 0 TrackKind.audio false false) (by decide) (by decide)

/-- C2 counterexample: a failing `getCamera` acquisition is not caught
inside the operation: the rejection propagates to the caller and the
state — in particular `userMediaError` — is left untouched (here still
`none`), contradicting the claim that every device-acquisition failure is
caught and stored as the static error string. -/
theorem getCamera_failure_escapes :
    getCamera "cam" false initState = (initState, Except.error ()) ∧
      (getCamera "cam" false initState).1.userMediaError = none := by
  exact ⟨rfl, rfl⟩

/-- C2 (amended): `requestPermissionAndPopulateDevices` and
`requestPermissionAndStartDevices` catch every acquisition failure and store
the single static user-facing error string in `userMediaError`, and
`userMediaError` only ever holds that one string (or nothing) in any
reachable state; `getCamera` and `getMicrophone`, however, catch nothing:
their acquisition failures propagate to the caller and leave the state,
including `userMediaError`, completely unchanged. -/
theorem acquisition_error_handling (s : ProviderState) (m c : Option String) (d d' : String) :
    requestPermissionAndPopulateDevices none s =
      { s with userMediaError := some staticUserMediaError } ∧
    requestPermissionAndStartDevices m c none s =
      { s with userMediaError := some staticUserMediaError } ∧
    getCamera d false s = (s, Except.error ()) ∧
    getMicrophone d' false s = (s, Except.error ()) ∧
    (∀ l : List Op, (run l).userMediaError = none ∨
      (run l).userMediaError = some staticUserMediaError) :=
  ⟨rfl, rfl, rfl, rfl, fun l => errorOk_run l⟩

/-- C1 counterexample: starting from the initial state, `getCamera "d0"`
installs camera track 0; a subsequent `getCamera "d1"` makes camera track 1
the active camera while track 0 (the previous active camera) exists, yet
track 0 is never stopped: it is still unstopped in the registry and the
whole event trace contains install events only, no stop. -/
theorem getCamera_does_not_stop_previous :
    (run [Op.getCamera "d0" true]).activeCamera = some 0 ∧
    (run [Op.getCamera "d0" true, Op.getCamera "d1" true]).activeCamera = some 1 ∧
    Track.mk 0 TrackKind.video true false ∈
      (run [Op.getCamera "d0" true, Op.getCamera "d1" true]).tracks ∧
    (run [Op.getCamera "d0" true, Op.getCamera "d1" true]).events =
      [Event.installCamera 0, Event.installCamera 1] := by
  decide

/-- C1 (amended): only `changeActiveCamera` stops the previous active camera
before acquiring the new one: its trace appends the stop of the previous
track followed by the install of the new track, and the previous track ends
up stopped in the registry. `getCamera` and `requestPermissionAndStartDevices`
install new tracks without stopping the previous active camera: `getCamera`
appends only the new track and its install event, and the start-devices loop
appends only tracks and install events, never a stop. -/
theorem changeActiveCamera_stops_previous_first (s : ProviderState) (cid : Nat)
    (d : String) (h : s.activeCamera = some cid) (hcid : cid < s.nextId) :
    ((changeActiveCamera d true s).1.events =
        s.events ++ [Event.stopTrack cid, Event.installCamera s.nextId]) ∧
    (∀ t ∈ (changeActiveCamera d true s).1.tracks, t.id = cid → t.stopped = true) ∧
    ((getCamera d true s).1.events = s.events ++ [Event.installCamera s.nextId]) ∧
    ((getCamera d true s).1.tracks = s.tracks ++
        [{ id := s.nextId, kind := TrackKind.video, enabled := true, stopped := false }]) ∧
    (∀ m c ks, ∃ ts es,
        (requestPermissionAndStartDevices m c (some ks) s).tracks = s.tracks ++ ts ∧
        (requestPermissionAndStartDevices m c (some ks) s).events = s.events ++ es ∧
        ∀ i, Event.stopTrack i ∉ es) := by
  have hstop : stopActiveCamera s =
      { s with
        tracks := stopTrackIn s.tracks cid
        activeCamera := none
        events := s.events ++ [Event.stopTrack cid] } := by
    simp [stopActiveCamera, h]
  have htr : (changeActiveCamera d true s).1.tracks =
      stopTrackIn s.tracks cid ++
        [{ id := s.nextId, kind := TrackKind.video, enabled := true, stopped := false }] := by
    show (getCamera d true (stopActiveCamera s)).1.tracks = _
    rw [hstop]
    simp [getCamera]
  refine ⟨?_, ?_, rfl, rfl, ?_⟩
  · show (getCamera d true (stopActiveCamera s)).1.events = _
    rw [hstop]
    simp [getCamera]
  · intro t ht hid
    rw [htr] at ht
    rcases List.mem_append.mp ht with hm | hm
    · exact stopTrackIn_stopped s.tracks cid t hm hid
    · have hid' : s.nextId = cid := by
        rw [List.mem_singleton.mp hm] at hid
        exact hid
      exact absurd hid' (by omega)
  · intro m c ks
    exact startDevicesLoop_extends ks s

/-- C1 (amended) witness: after acquiring camera 0, `changeActiveCamera`
emits the stop of track 0 before the install of the new track 1. -/
theorem changeActiveCamera_stops_previous_first_witness :
    (changeActiveCamera "d1" true (run [Op.getCamera "d0" true])).1.events =
      (run [Op.getCamera "d0" true]).events ++
        [Event.stopTrack 0, Event.installCamera 1] := by
  have h := changeActiveCamera_stops_previous_first (run [Op.getCamera "d0" true]) 0 "d1"
      (by decide) (by decide)
  have e : (run [Op.getCamera "d0" true]).nextId = 1 := by decide
  rw [← e]
  exact h.1

/-- C3: in every state reachable by any sequence of provider operations,
there is at most one active camera track and at most one active microphone
track: any two registry tracks occupying the `activeCamera` slot (resp. the
`activeMicrophone` slot) are equal. -/
theorem run_at_most_one_active_track (l : List Op) (t₁ t₂ : Track) :
    (isActiveCameraTrack (run l) t₁ → isActiveCameraTrack (run l) t₂ → t₁ = t₂) ∧
    (isActiveMicrophoneTrack (run l) t₁ → isActiveMicrophoneTrack (run l) t₂ → t₁ = t₂) := by
  have hwf := tracksWf_run l
  constructor
  · intro h1 h2
    exact track_eq_of_id_eq hwf.2 h1.1 h2.1 (Option.some_inj.mp (h1.2.symm.trans h2.2))
  · intro h1 h2
    exact track_eq_of_id_eq hwf.2 h1.1 h2.1 (Option.some_inj.mp (h1.2.symm.trans h2.2))

/-- C3 witness: after one `getCamera`, track 0 is the active camera track
and the uniqueness theorem applies to it. -/
theorem run_at_most_one_active_track_witness :
    isActiveCameraTrack (run [Op.getCamera "d" true]) (Track.mk 0 TrackKind.video true false) ∧
      Track.mk 0 TrackKind.video true false = Track.mk 0 TrackKind.video true false :=
  ⟨by decide,
    (run_at_most_one_active_track [Op.getCamera "d" true]
        (Track.mk 0 TrackKind.video true false)
        (Track.mk 0 TrackKind.video true false)).1 (by decide) (by decide)⟩

/-- C6: on a successful run, `requestPermissionAndPopulateDevices` stops
every track of the permission-gaining dummy stream, then enumerates devices
and populates `microphoneDevices` with exactly the enumerated "audioinput"
devices and `cameraDevices` with exactly the "videoinput" devices, the trace
showing the dummy stops before the enumeration, before the microphone list,
before the camera list. -/
theorem requestPermissionAndPopulateDevices_spec (s : ProviderState)
    (dummy : List TrackKind) (devices : List MediaDeviceInfo) :
    (requestPermissionAndPopulateDevices (some (dummy, devices)) s).microphoneDevices =
        devices.filter (fun d => d.kind = "audioinput") ∧
    (requestPermissionAndPopulateDevices (some (dummy, devices)) s).cameraDevices =
        devices.filter (fun d => d.kind = "videoinput") ∧
    (requestPermissionAndPopulateDevices (some (dummy, devices)) s).tracks =
        s.tracks ++ dummyStopped s.nextId dummy ∧
    (∀ t ∈ dummyStopped s.nextId dummy, t.stopped = true) ∧
    (requestPermissionAndPopulateDevices (some (dummy, devices)) s).events =
        s.events ++ (dummyStopped s.nextId dummy).map (fun t => Event.stopTrack t.id)
          ++ [Event.enumerateDevices, Event.setMicrophoneDevices, Event.setCameraDevices] :=
  ⟨rfl, rfl, rfl, dummyStopped_all_stopped dummy s.nextId, rfl⟩

/-- C6 witness: a concrete successful run with one audio and one video dummy
track and three enumerated devices. -/
theorem requestPermissionAndPopulateDevices_spec_witness :
    (requestPermissionAndPopulateDevices
        (some ([TrackKind.audio, TrackKind.video],
          [MediaDeviceInfo.mk "m0" "audioinput", MediaDeviceInfo.mk "c0" "videoinput",
            MediaDeviceInfo.mk "s0" "audiooutput"])) initState).microphoneDevices =
      [MediaDeviceInfo.mk "m0" "audioinput"] ∧
    (∀ t ∈ dummyStopped initState.nextId [TrackKind.audio, TrackKind.video],
      t.stopped = true) := by
  have h := requestPermissionAndPopulateDevices_spec initState
      [TrackKind.audio, TrackKind.video]
      [MediaDeviceInfo.mk "m0" "audioinput", MediaDeviceInfo.mk "c0" "videoinput",
        MediaDeviceInfo.mk "s0" "audiooutput"]
  exact ⟨h.1.trans (by decide), h.2.2.2.1⟩

lemma renderGalleryChild_inject (b : Box) (hbw : b.width ≠ 0) (hbh : b.height ≠ 0)
    (c : RChild) : renderGalleryChild (some b) c = injectSize b c := by
  cases c with
  | element e => simp [renderGalleryChild, injectSize, hbw, hbh]
  | textNode t => rfl

lemma renderGalleryChild_keep_none (c : RChild) : renderGalleryChild none c = c := by
  cases c <;> rfl

lemma renderGalleryChild_keep_zero (b : Box) (hz : b.width = 0 ∨ b.height = 0)
    (c : RChild) : renderGalleryChild (some b) c = c := by
  cases c with
  | element e =>
      have hcond : ¬(b.width ≠ 0 ∧ b.height ≠ 0) := by
        rcases hz with hcase | hcase
        · intro hco
          exact hco.1 hcase
        · intro hco
          exact hco.2 hcase
      simp [renderGalleryChild, hcond]
  | textNode t => rfl

/-- C4: if the box computation yields a result with nonzero width and
height, `GalleryLayout` clones every valid child element with exactly that
computed width and height injected as props (non-element children pass
through untouched, as `injectSize` shows); if the computation yields no
result, or a result with zero width or zero height, every child is returned
unmodified. -/
theorem GalleryLayout_prop_injection
    (calcBoxes : ℚ → ℚ → Nat → ℚ → ℚ → Option Box) (l : List RChild)
    (width height : ℚ) (gap : Option ℚ) :
    (∀ b, galleryBestFit calcBoxes (some l) width height (galleryGap gap) = some b →
      b.width ≠ 0 → b.height ≠ 0 →
      GalleryLayout calcBoxes (some l) width height gap = some (l.map (injectSize b))) ∧
    ((galleryBestFit calcBoxes (some l) width height (galleryGap gap) = none ∨
      (∃ b, galleryBestFit calcBoxes (some l) width height (galleryGap gap) = some b ∧
        (b.width = 0 ∨ b.height = 0))) →
      GalleryLayout calcBoxes (some l) width height gap = some l) := by
  constructor
  · intro b hb hbw hbh
    show some (l.map (renderGalleryChild
        (galleryBestFit calcBoxes (some l) width height (galleryGap gap)))) = _
    rw [hb]
    congr 1
    apply List.map_congr_left
    intro c _
    exact renderGalleryChild_inject b hbw hbh c
  · intro hcase
    show some (l.map (renderGalleryChild
        (galleryBestFit calcBoxes (some l) width height (galleryGap gap)))) = some l
    rcases hcase with hnone | ⟨b, hb, hz⟩
    · rw [hnone]
      congr 1
      calc l.map (renderGalleryChild none)
          = l.map id := List.map_congr_left fun c _ => renderGalleryChild_keep_none c
        _ = l := List.map_id l
    · rw [hb]
      congr 1
      calc l.map (renderGalleryChild (some b))
          = l.map id := List.map_congr_left fun c _ => renderGalleryChild_keep_zero b hz c
        _ = l := List.map_id l

/-- C4 witness: with a helper yielding a nonzero box, a valid element child
gets the box's width and height injected and a text child passes through. -/
theorem GalleryLayout_prop_injection_witness :
    GalleryLayout (fun _ _ _ _ _ => some (Box.mk 100 56))
        (some [RChild.element (RElement.mk 0 none none), RChild.textNode "t"]) 640 360 none =
      some [RChild.element (RElement.mk 0 (some 100) (some 56)), RChild.textNode "t"] := by
  have h := (GalleryLayout_prop_injection (fun _ _ _ _ _ => some (Box.mk 100 56))
      [RChild.element (RElement.mk 0 none none), RChild.textNode "t"] 640 360 none).1
      (Box.mk 100 56) rfl (by norm_num) (by norm_num)
  rw [h]
  rfl

/-- C7: `GalleryLayout` hands its box-computation helper exactly the given
viewport width and height, the count of its children, the fixed 16 / 9
aspect ratio, and the gap prop (defaulting to 10 when absent); when the
children are absent the helper is not consulted and there is no box. -/
theorem GalleryLayout_calc_arguments
    (calcBoxes : ℚ → ℚ → Nat → ℚ → ℚ → Option Box)
    (children : Option (List RChild)) (width height : ℚ) (gap : Option ℚ) :
    (∀ l, children = some l →
      galleryBestFit calcBoxes children width height (galleryGap gap) =
        calcBoxes width height (childrenCount children) ((16 : ℚ) / 9) (galleryGap gap)) ∧
    galleryGap none = 10 ∧ (∀ g, galleryGap (some g) = g) ∧
    (children = none →
      galleryBestFit calcBoxes children width height (galleryGap gap) = none) := by
  refine ⟨?_, rfl, fun g => rfl, ?_⟩
  · intro l hl
    subst hl
    rfl
  · intro hn
    subst hn
    rfl

/-- C7 witness: with one child and no gap prop, the helper receives the
count 1 and the default gap 10, here reflected by a helper that returns a
box only for a nonzero count. -/
theorem GalleryLayout_calc_arguments_witness :
    galleryBestFit (fun w h n _ g => if n = 0 ∨ g ≠ 10 then none else some (Box.mk w h))
        (some [RChild.textNode "x"]) 640 360 (galleryGap none) = some (Box.mk 640 360) := by
  rw [(GalleryLayout_calc_arguments
      (fun w h n _ g => if n = 0 ∨ g ≠ 10 then none else some (Box.mk w h))
      (some [RChild.textNode "x"]) 640 360 none).1 [RChild.textNode "x"] rfl]
  norm_num [childrenCount, galleryGap]

/-- C9: `getActiveMicrophoneLevel` returns null exactly when there is no
active microphone or no local audio analyser; otherwise it returns a record
whose `avgDb` is the arithmetic mean of the analyser's byte frequency data
values and whose `peakDb` is their maximum. -/
theorem getActiveMicrophoneLevel_spec (s : ProviderState) (data : List Nat) :
    (getActiveMicrophoneLevel data s = none ↔
      s.activeMicrophone = none ∨ s.localAudioAnalyser = none) ∧
    (∀ r, getActiveMicrophoneLevel data s = some r → data ≠ [] →
      r.1 = ((data.sum : ℚ) / (data.length : ℚ)) ∧
      (∃ m, m ∈ data ∧ r.2 = (m : ℚ) ∧ ∀ x ∈ data, x ≤ m)) := by
  cases hm : s.activeMicrophone with
  | none =>
      refine ⟨by simp [getActiveMicrophoneLevel, hm], ?_⟩
      intro r hr hne
      exfalso
      simp [getActiveMicrophoneLevel, hm] at hr
  | some mid =>
      cases ha : s.localAudioAnalyser with
      | none =>
          refine ⟨by simp [getActiveMicrophoneLevel, hm, ha], ?_⟩
          intro r hr hne
          exfalso
          simp [getActiveMicrophoneLevel, hm, ha] at hr
      | some aid =>
          refine ⟨by simp [getActiveMicrophoneLevel, hm, ha], ?_⟩
          intro r hr hne
          have hpair : (((data.foldl (· + ·) 0 : Nat) : ℚ) / (data.length : ℚ),
              ((data.foldl max 0 : Nat) : ℚ)) = r := by
            have hred := hr
            simp only [getActiveMicrophoneLevel, hm, ha, Option.some_inj] at hred
            exact hred
          subst hpair
          refine ⟨?_, ?_⟩
          · show ((data.foldl (· + ·) 0 : Nat) : ℚ) / (data.length : ℚ) = _
            rw [(foldl_add_eq_sum data 0).trans (Nat.zero_add _)]
          · refine ⟨data.foldl max 0, ?_, rfl, fun x hx => foldl_max_le data 0 x hx⟩
            rcases foldl_max_mem data 0 with h0 | hmem
            · obtain ⟨x, xs, hcons⟩ := List.exists_cons_of_ne_nil hne
              have hxle : x ≤ data.foldl max 0 :=
                foldl_max_le data 0 x (by rw [hcons]; exact List.mem_cons_self x xs)
              rw [h0] at hxle
              have hx0 : x = 0 := Nat.le_zero.mp hxle
              rw [h0, ← hx0, hcons]
              exact List.mem_cons_self x xs
            · exact hmem

/-- C9 witness: with an active microphone and analyser and a data snapshot
of `[3, 5]`, the level is the mean 4 and the peak 5. -/
theorem getActiveMicrophoneLevel_spec_witness :
    ([3, 5] : List Nat) ≠ [] ∧
    ((4 : ℚ), (5 : ℚ)).1 = ((([3, 5] : List Nat).sum : ℚ) / (([3, 5] : List Nat).length : ℚ)) ∧
    (∃ m, m ∈ ([3, 5] : List Nat) ∧ ((4 : ℚ), (5 : ℚ)).2 = (m : ℚ) ∧
      ∀ x ∈ ([3, 5] : List Nat), x ≤ m) := by
  have hm2 : (run [Op.getMicrophone "m" true]).activeMicrophone = some 0 := by decide
  have ha2 : (run [Op.getMicrophone "m" true]).localAudioAnalyser = some 0 := by decide
  have hsome : getActiveMicrophoneLevel [3, 5] (run [Op.getMicrophone "m" true]) =
      some ((4 : ℚ), (5 : ℚ)) := by
    simp only [getActiveMicrophoneLevel, hm2, ha2]
    norm_num [List.foldl, Nat.max_def]
  have h := (getActiveMicrophoneLevel_spec (run [Op.getMicrophone "m" true]) [3, 5]).2
      ((4 : ℚ), (5 : ℚ)) hsome (by decide)
  exact ⟨by decide, h.1, h.2⟩

/-- C8: the boxes computed by GalleryLayout's layout computation (the
spec-modelled `calcOptimalBoxes`, invoked through `galleryBestFit` with the
fixed 16 / 9 ratio) never exceed the viewport bounds for any child count:
the computed box width is at most the viewport width and the computed box
height is at most the viewport height. -/
theorem GalleryLayout_boxes_within_viewport (children : Option (List RChild))
    (width height : ℚ) (gap : Option ℚ) (hw : 0 ≤ width) (hh : 0 ≤ height)
    (hg : 0 ≤ galleryGap gap) (b : Box)
    (hb : galleryBestFit calcOptimalBoxes children width height (galleryGap gap) = some b) :
    b.width ≤ width ∧ b.height ≤ height := by
  match children, hb with
  | none, hb => exact Option.noConfusion hb
  | some l, hb =>
      exact calcOptimalBoxes_within width height ((16 : ℚ) / 9) (galleryGap gap) l.length
        hw hh hg (by norm_num) b hb

/-- C8 witness: one child in a 160 by 90 viewport with the default gap
yields the box 160 by 90, within bounds. -/
theorem GalleryLayout_boxes_within_viewport_witness :
    (0 : ℚ) ≤ 160 ∧ (0 : ℚ) ≤ 90 ∧ (0 : ℚ) ≤ galleryGap none ∧
    (Box.mk 160 90).width ≤ 160 ∧ (Box.mk 160 90).height ≤ 90 := by
  have hcand : boxCandidate 160 90 1 1 ((16 : ℚ) / 9) 10 = Box.mk 160 90 := by
    unfold boxCandidate boxWidthFor boxAvail boxRows
    norm_num [max_def, min_def]
  have hcalc : calcOptimalBoxes 160 90 1 ((16 : ℚ) / 9) 10 = some (Box.mk 160 90) := by
    show some ((((List.range 1).map
        fun i => boxCandidate 160 90 1 (i + 1) ((16 : ℚ) / 9) 10).foldl
      betterBox (boxCandidate 160 90 1 1 ((16 : ℚ) / 9) 10))) = some (Box.mk 160 90)
    rw [show List.range 1 = [0] from rfl]
    simp [hcand, betterBox]
  have hb : galleryBestFit calcOptimalBoxes
      (some [RChild.element (RElement.mk 0 none none)]) 160 90 (galleryGap none) =
      some (Box.mk 160 90) := hcalc
  have h := GalleryLayout_boxes_within_viewport
      (some [RChild.element (RElement.mk 0 none none)]) 160 90 none
      (by norm_num) (by norm_num) (by norm_num [galleryGap]) (Box.mk 160 90) hb
  exact ⟨by norm_num, by norm_num, by norm_num [galleryGap], h.1, h.2⟩

end Signfy
